import Mathlib

/-!
Verification of the order-processing microservices repository.

The development shallowly embeds the Go sources:
* the payment service in-memory ledger (`payment_service` data package,
  `CreatePayment` / `ProcessPayment` / `simulatePaymentGateway`),
* the order service data model (`order_service/data/orders.go`),
* the order repository partial updates (`order_service/repository/postgres.go`),
* the order-creation orchestrator (`order_service/handlers/orders.go`).

Modelling conventions:
* `float64` money amounts are embedded as exact rationals `ℚ`;
* `time.Time` values are abstract instants `Nat`, threaded as parameters
  where the code calls `time.Now()`;
* `uuid.New().String()` is threaded as an explicit nonce parameter
  (a UUID string always has length 36);
* Go pointer mutation is replaced by explicit state passing: each store
  operation returns the new store together with its result.
-/

/-! ### Decimal representation of naturals

The in-memory ledger generates payment ids with `fmt.Sprintf("pay_%d", nextID)`.
Freshness of ids relies on decimal printing being injective, which we prove
here for the actual printing function `Nat.toDigitsCore` used by `toString`.
-/

/-- Decimal digit characters of `n`, most significant first.  This is the
list `Nat.toDigitsCore` computes once it is given enough fuel. -/
def natChars (n : Nat) : List Char :=
  if _h : n < 10 then [Nat.digitChar n]
  else natChars (n / 10) ++ [Nat.digitChar (n % 10)]
decreasing_by exact Nat.div_lt_self (by omega) (by omega)

theorem toDigitsCore_eq_natChars (f : Nat) :
    ∀ n ds, n < f → Nat.toDigitsCore 10 f n ds = natChars n ++ ds := by
  induction f with
  | zero => intro n ds h; omega
  | succ f ih =>
    intro n ds h
    show Nat.toDigitsCore 10 (f + 1) n ds = natChars n ++ ds
    simp only [Nat.toDigitsCore]
    by_cases h10 : n / 10 = 0
    · have hn : n < 10 := by omega
      rw [natChars]
      simp [h10, hn, Nat.mod_eq_of_lt hn]
    · have hn : ¬ n < 10 := by omega
      have hlt : n / 10 < f := by omega
      simp only [h10, if_false]
      rw [ih (n / 10) _ hlt]
      conv_rhs => rw [natChars]
      simp [hn]

/-- Value of a most-significant-first decimal digit list, continuing from the
accumulator `a`. -/
def decodeFrom (a : Nat) (l : List Char) : Nat :=
  l.foldl (fun acc c => 10 * acc + (c.toNat - 48)) a

theorem digitChar_toNat {d : Nat} (h : d < 10) : (Nat.digitChar d).toNat = 48 + d := by
  interval_cases d <;> rfl

theorem decodeFrom_natChars (n : Nat) : ∀ a, decodeFrom a (natChars n) = a * 10 ^ (natChars n).length + n := by
  induction n using Nat.strong_induction_on with
  | _ n ih =>
    intro a
    by_cases h : n < 10
    · rw [natChars]
      simp only [h, dif_pos]
      simp [decodeFrom, digitChar_toNat h]
      ring
    · have hpos : 0 < n := by omega
      have hdiv : n / 10 < n := Nat.div_lt_self hpos (by omega)
      rw [natChars]
      simp only [h, dif_neg, not_false_iff]
      simp only [decodeFrom, List.foldl_append, List.foldl_cons, List.foldl_nil]
      have hrec := ih (n / 10) hdiv a
      simp only [decodeFrom] at hrec
      rw [hrec]
      rw [digitChar_toNat (Nat.mod_lt n (by omega))]
      have hlen : (natChars (n / 10) ++ [Nat.digitChar (n % 10)]).length
          = (natChars (n / 10)).length + 1 := by simp
      rw [hlen]
      have hsplit : 10 * (n / 10) + n % 10 = n := Nat.div_add_mod n 10
      ring_nf
      omega

theorem natChars_injective : Function.Injective natChars := by
  intro m n h
  have hm := decodeFrom_natChars m 0
  have hn := decodeFrom_natChars n 0
  rw [h] at hm
  simp at hm hn
  omega

theorem toString_nat_injective {m n : Nat} (h : toString m = toString n) : m = n := by
  have hs : (Nat.toDigits 10 m).asString = (Nat.toDigits 10 n).asString := h
  have hd : Nat.toDigits 10 m = Nat.toDigits 10 n := by
    have := congrArg String.data hs
    simpa [List.asString] using this
  have hm : Nat.toDigits 10 m = natChars m := by
    have := toDigitsCore_eq_natChars (m + 1) m [] (Nat.lt_succ_self m)
    simpa [Nat.toDigits] using this
  have hn : Nat.toDigits 10 n = natChars n := by
    have := toDigitsCore_eq_natChars (n + 1) n [] (Nat.lt_succ_self n)
    simpa [Nat.toDigits] using this
  exact natChars_injective (hm ▸ hn ▸ hd)

theorem string_append_left_cancel {a b c : String} (h : a ++ b = a ++ c) : b = c := by
  have hd := congrArg String.data h
  simp only [String.data_append] at hd
  have := List.append_cancel_left hd
  cases b; cases c; exact congrArg String.mk this

/-! ### Payment service data model

Embeds the in-memory payment ledger of the payment service data package:
status constants, the `Payment` struct, the global store
(`paymentList`, `nextID`, `idempotencyMap`), `generateID`,
`GetPaymentByID`/`findPayment`, `CreatePayment`, `ProcessPayment` and
`simulatePaymentGateway`. -/

def PaymentStatusPending : String := "pending"

def PaymentStatusProcessing : String := "processing"

def PaymentStatusCompleted : String := "completed"

def PaymentStatusFailed : String := "failed"

/-- The `Payment` struct of the payment service.  `float64` amounts become
`ℚ`; `time.Time` stamps become abstract `Nat` instants. -/
structure Payment where
  id : String
  orderID : String
  amount : ℚ
  currency : String
  status : String
  method : String
  customerID : String
  idempotencyKey : String
  transactionID : String
  errorMessage : String
  createdAt : Nat
  processedAt : Option Nat
  failedAt : Option Nat
  deriving Repr, DecidableEq

/-- The mutable package-level state of the in-memory ledger:
`paymentList`, the `nextID` counter, and the idempotency key map
(association list, keys inserted only when absent). -/
structure PaymentLedger where
  paymentList : List Payment
  nextID : Nat
  idempotencyMap : List (String × String)
  deriving Repr, DecidableEq

/-- Initial ledger state: empty list, `nextID = 1`, empty map. -/
def paymentLedgerInit : PaymentLedger :=
  { paymentList := [], nextID := 1, idempotencyMap := [] }

/-- The id generator `fmt.Sprintf("pay_%d", nextID)`. -/
def generateID (n : Nat) : String := "pay_" ++ toString n

/-- Linear scan of `getPaymentByID`. -/
def getPaymentByID (l : List Payment) (id : String) : Option Payment :=
  l.find? (fun p => p.id == id)

/-- Linear scan of `findPayment`, returning the payment and its index. -/
def findPayment : List Payment → String → Option (Payment × Nat)
  | [], _ => none
  | p :: rest, id =>
    if p.id = id then some (p, 0)
    else (findPayment rest id).map (fun q => (q.1, q.2 + 1))

/-- Outcome of `CreatePayment` (the `error` return value). -/
inductive CreateResult where
  | ok
  | duplicateIdempotencyKey
  deriving Repr, DecidableEq

/-- The ledger `CreatePayment`.  On a duplicate idempotency key the Go code
overwrites the whole caller struct with the stored winner
(`*p = *existingPayment`) and returns `ErrDuplicateIdempotencyKey`; we model
the overwritten struct as the returned `Payment`.  `none` models the nil
pointer dereference that would occur if the idempotency map named an id
absent from the list (impossible in consistent states). -/
def CreatePayment (st : PaymentLedger) (p : Payment) (now : Nat) :
    Option (PaymentLedger × Payment × CreateResult) :=
  match st.idempotencyMap.lookup p.idempotencyKey with
  | some existingID =>
    match getPaymentByID st.paymentList existingID with
    | some existing => some (st, existing, .duplicateIdempotencyKey)
    | none => none
  | none =>
    let p' := { p with id := generateID st.nextID,
                       status := PaymentStatusPending,
                       createdAt := now }
    some ({ paymentList := st.paymentList ++ [p'],
            nextID := st.nextID + 1,
            idempotencyMap := (p.idempotencyKey, p'.id) :: st.idempotencyMap },
          p', .ok)

/-- The gateway simulator: amount 666 always declines, amounts above 10000
decline, everything else is accepted. -/
def simulatePaymentGateway (payment : Payment) : Bool :=
  if payment.amount = 666 ∨ payment.amount > 10000 then false else true

/-- Outcome of `ProcessPayment` (the `error` return value). -/
inductive ProcessResult where
  | ok
  | paymentNotFound
  | alreadyProcessed
  deriving Repr, DecidableEq

/-- The ledger `ProcessPayment`: look the payment up, refuse if its status is
`completed`, otherwise mark it processing, consult the gateway, and store the
terminal result.  `now` stands for `time.Now()`, `txn` for the transaction id
suffix `time.Now().Unix()`. -/
def ProcessPayment (st : PaymentLedger) (paymentID : String) (now txn : Nat) :
    PaymentLedger × ProcessResult :=
  match findPayment st.paymentList paymentID with
  | none => (st, .paymentNotFound)
  | some (payment, index) =>
    if payment.status = PaymentStatusCompleted then
      (st, .alreadyProcessed)
    else
      let processing := { payment with status := PaymentStatusProcessing }
      let success := simulatePaymentGateway processing
      let updated :=
        if success then
          { processing with status := PaymentStatusCompleted,
                            processedAt := some now,
                            transactionID := "txn_" ++ toString txn }
        else
          { processing with status := PaymentStatusFailed,
                            failedAt := some now,
                            errorMessage := "Payment declined by gateway" }
      ({ st with paymentList := st.paymentList.set index updated }, .ok)

/-- Consistency of a ledger state, maintained by the create path:
every map entry points at a listed payment carrying that id and key, every
listed payment has its key in the map, keys and ids are unique in the list,
and every listed id was produced by the counter. -/
def Consistent (st : PaymentLedger) : Prop :=
  (∀ e ∈ st.idempotencyMap, ∃ p ∈ st.paymentList, p.id = e.2 ∧ p.idempotencyKey = e.1)
  ∧ (∀ p ∈ st.paymentList, (st.idempotencyMap.lookup p.idempotencyKey).isSome = true)
  ∧ st.paymentList.Pairwise (fun p q => p.idempotencyKey ≠ q.idempotencyKey)
  ∧ st.paymentList.Pairwise (fun p q => p.id ≠ q.id)
  ∧ (∀ p ∈ st.paymentList, p.id ∈ (List.range st.nextID).map generateID)

instance (st : PaymentLedger) : Decidable (Consistent st) := by
  unfold Consistent
  infer_instance

/-! ### Order service data model

Embeds `order_service/data/orders.go` (final revision): status constants,
`Product`, `OrderItemRequest`, `OrderItem`, `CreateOrderRequest`, `Order`,
`CalculateTotal`, `GenerateOrderID`/`GenerateIdempotencyKey`. -/

def OrderStatusPending : String := "pending"

def OrderStatusPaid : String := "paid"

def OrderStatusConfirmed : String := "confirmed"

def OrderStatusCancelled : String := "cancelled"

def OrderStatusFailed : String := "failed"

/-- The catalog `Product` struct. -/
structure Product where
  id : String
  name : String
  description : String
  price : ℚ
  emoji : String
  category : String
  available : Bool
  createdAt : Nat
  updatedAt : Nat
  deriving Repr, DecidableEq

/-- A client line item: product reference and quantity only, no prices. -/
structure OrderItemRequest where
  productID : String
  quantity : Int
  deriving Repr, DecidableEq

/-- A stored line item with server-validated prices. -/
structure OrderItem where
  productID : String
  productName : String
  quantity : Int
  unitPrice : ℚ
  subtotal : ℚ
  deriving Repr, DecidableEq

/-- The client order-creation request (validated upstream by middleware). -/
structure CreateOrderRequest where
  customerID : String
  customerEmail : String
  items : List OrderItemRequest
  currency : String
  paymentMethod : String
  shippingAddress : String
  deriving Repr, DecidableEq

/-- The stored `Order` struct. -/
structure Order where
  id : String
  customerID : String
  customerEmail : String
  items : List OrderItem
  totalAmount : ℚ
  currency : String
  status : String
  paymentID : String
  paymentMethod : String
  shippingAddress : String
  createdAt : Nat
  updatedAt : Nat
  deriving Repr, DecidableEq

/-- `Order.CalculateTotal`: overwrite each item subtotal with
`float64(quantity) * unitPrice` and accumulate the total over the updated
items, exactly as the loop does. -/
def Order.calculateTotal (o : Order) : Order :=
  let items := o.items.map (fun it => { it with subtotal := (it.quantity : ℚ) * it.unitPrice })
  { o with items := items,
           totalAmount := items.foldl (fun total it => total + it.subtotal) 0 }

/-- The key derivation `"idem_" + orderID + "_" + uuid.New().String()`, with
the freshly drawn UUID string passed in as `nonce`. -/
def GenerateIdempotencyKey (orderID nonce : String) : String :=
  "idem_" ++ orderID ++ "_" ++ nonce

/-! ### Order repository

Embeds the PostgreSQL order repository: `Create` inserts a row,
`UpdateStatus` and `UpdatePaymentID` run targeted `UPDATE ... WHERE id = $n`
statements that also refresh `updated_at`, reporting `ErrOrderNotFound` when
no row matched. -/

/-- Outcome of a repository update (`error` return value). -/
inductive UpdateResult where
  | ok
  | orderNotFound
  deriving Repr, DecidableEq

/-- The `UPDATE orders SET status = $1, updated_at = $2 WHERE id = $3`
statement: every row whose id matches gets the new status and timestamp. -/
def UpdateStatus (store : List Order) (id status : String) (now : Nat) :
    List Order × UpdateResult :=
  (store.map (fun o => if o.id = id then { o with status := status, updatedAt := now } else o),
   if store.any (fun o => o.id == id) then .ok else .orderNotFound)

/-- The `UPDATE orders SET payment_id = $1, updated_at = $2 WHERE id = $3`
statement. -/
def UpdatePaymentID (store : List Order) (orderID paymentID : String) (now : Nat) :
    List Order × UpdateResult :=
  (store.map (fun o => if o.id = orderID then { o with paymentID := paymentID, updatedAt := now } else o),
   if store.any (fun o => o.id == orderID) then .ok else .orderNotFound)

/-! ### Order-creation orchestrator

Embeds `Orders.CreateOrder` and `Orders.buildOrderFromRequest` of
`order_service/handlers/orders.go` (final revision) together with the
payment client call.  The remote payment call is a parameter
`payCall`; its `transportError` outcome covers every case in which
`Client.ProcessPayment` returns a non-nil error (unreachable service,
timeout, or a non-2xx response), and `response` carries the decoded
payment of a successful call. -/

/-- Reasons `buildOrderFromRequest` rejects a request. -/
inductive BuildError where
  | productNotFound (id : String)
  | productUnavailable (name : String)
  deriving Repr, DecidableEq

/-- Error strings produced by `buildOrderFromRequest` via `fmt.Errorf`. -/
def buildErrorMsg : BuildError → String
  | .productNotFound id => "product not found: " ++ id
  | .productUnavailable name => "product unavailable: " ++ name

/-- The repository `GetProduct` over a pure catalog. -/
def getProduct (products : List Product) (id : String) : Except BuildError Product :=
  match products.find? (fun pr => pr.id == id) with
  | some pr => .ok pr
  | none => .error (.productNotFound id)

/-- The item-validation loop of `buildOrderFromRequest`: fetch each product,
reject unavailable ones, and price the line from the server-side catalog
record (`Subtotal = product.Price * float64(quantity)`). -/
def buildItems (products : List Product) : List OrderItemRequest → Except BuildError (List OrderItem)
  | [] => .ok []
  | itemReq :: rest =>
    match getProduct products itemReq.productID with
    | .error e => .error e
    | .ok product =>
      if product.available then
        (buildItems products rest).map
          (fun items =>
            { productID := product.id,
              productName := product.name,
              quantity := itemReq.quantity,
              unitPrice := product.price,
              subtotal := product.price * (itemReq.quantity : ℚ) } :: items)
      else .error (.productUnavailable product.name)

/-- The full `buildOrderFromRequest`: copy the client fields, build the items
with server prices, then run `CalculateTotal`. -/
def buildOrderFromRequest (products : List Product) (req : CreateOrderRequest) :
    Except BuildError Order :=
  (buildItems products req.items).map
    (fun items =>
      Order.calculateTotal
        { id := "",
          customerID := req.customerID,
          customerEmail := req.customerEmail,
          items := items,
          totalAmount := 0,
          currency := req.currency,
          status := "",
          paymentID := "",
          paymentMethod := req.paymentMethod,
          shippingAddress := req.shippingAddress,
          createdAt := 0,
          updatedAt := 0 })

/-- The request body sent to the payment service. -/
structure PaymentRequest where
  orderID : String
  amount : ℚ
  currency : String
  method : String
  customerID : String
  idempotencyKey : String
  deriving Repr, DecidableEq

/-- The payment as decoded from the payment service response by the client. -/
structure ClientPayment where
  id : String
  orderID : String
  amount : ℚ
  currency : String
  status : String
  method : String
  customerID : String
  transactionID : String
  errorMessage : String
  createdAt : Nat
  deriving Repr, DecidableEq

/-- Result of `Client.ProcessPayment` as observed by the orchestrator. -/
inductive PaymentCallOutcome where
  | transportError
  | response (pay : ClientPayment)
  deriving Repr, DecidableEq

/-- Response of the `CreateOrder` handler. -/
inductive CreateOrderResult where
  | badRequest (msg : String)
  | paymentServiceUnavailable
  | created (o : Order)
  | paymentFailed (msg : String)
  deriving Repr, DecidableEq

/-- The metadata assignment after building: fresh id, `pending` status,
creation timestamps. -/
def withCreationMeta (ord : Order) (orderID : String) (now : Nat) : Order :=
  { ord with id := orderID, status := OrderStatusPending, createdAt := now, updatedAt := now }

/-- The payment request assembled by `CreateOrder` from the persisted order,
with the idempotency key derived from the fresh order id and `nonce`. -/
def paymentRequestFor (o : Order) (nonce : String) : PaymentRequest :=
  { orderID := o.id,
    amount := o.totalAmount,
    currency := o.currency,
    method := o.paymentMethod,
    customerID := o.customerID,
    idempotencyKey := GenerateIdempotencyKey o.id nonce }

/-- The `CreateOrder` handler: build with server prices, persist pending,
call the payment service, patch the order to its terminal state, and answer.
`orderID` stands for the fresh `GenerateOrderID()` value, `nonce` for the
UUID suffix of the idempotency key, `now` for `data.Now()`.  The local
database insert is pure and cannot fail in this model. -/
def CreateOrder (products : List Product) (store : List Order)
    (req : CreateOrderRequest) (orderID nonce : String) (now : Nat)
    (payCall : PaymentRequest → PaymentCallOutcome) :
    List Order × CreateOrderResult :=
  match buildOrderFromRequest products req with
  | .error e => (store, .badRequest (buildErrorMsg e))
  | .ok ord =>
    let order1 := withCreationMeta ord orderID now
    if order1.totalAmount ≤ 0 then (store, .badRequest "Invalid order total")
    else
      let store1 := store ++ [order1]
      match payCall (paymentRequestFor order1 nonce) with
      | .transportError =>
        ((UpdateStatus store1 order1.id OrderStatusFailed now).1, .paymentServiceUnavailable)
      | .response pay =>
        let store2 := (UpdatePaymentID store1 order1.id pay.id now).1
        let order2 := { order1 with paymentID := pay.id }
        if pay.status = "completed" then
          ((UpdateStatus store2 order1.id OrderStatusPaid now).1,
           .created { order2 with status := OrderStatusPaid })
        else
          ((UpdateStatus store2 order1.id OrderStatusFailed now).1,
           .paymentFailed ("Payment failed: " ++ pay.errorMessage))

/-! ### Helper lemmas -/

theorem generateID_injective : Function.Injective generateID := by
  intro m n h
  exact toString_nat_injective (string_append_left_cancel h)

theorem lookup_mem {m : List (String × String)} {k v : String}
    (h : m.lookup k = some v) : (k, v) ∈ m := by
  induction m with
  | nil => simp [List.lookup] at h
  | cons e m ih =>
    obtain ⟨k1, v1⟩ := e
    by_cases hk : k = k1
    · subst hk
      simp [List.lookup] at h
      simp [h]
    · have hb : (k == k1) = false := beq_eq_false_iff_ne.mpr hk
      simp only [List.lookup, hb] at h
      exact List.mem_cons_of_mem _ (ih h)

theorem getPaymentByID_of_mem : ∀ {l : List Payment} {p : Payment},
    l.Pairwise (fun a b => a.id ≠ b.id) → p ∈ l → getPaymentByID l p.id = some p := by
  intro l
  induction l with
  | nil => intro p _ h; cases h
  | cons a l ih =>
    intro p hpw hmem
    rw [List.pairwise_cons] at hpw
    rcases List.mem_cons.mp hmem with rfl | hm
    · simp [getPaymentByID]
    · have hne : (a.id == p.id) = false := by
        simp
        exact hpw.1 p hm
      have htail := ih hpw.2 hm
      simp only [getPaymentByID, List.find?_cons, hne] at htail ⊢
      exact htail

theorem eq_of_same_key : ∀ {l : List Payment},
    l.Pairwise (fun a b => a.idempotencyKey ≠ b.idempotencyKey) →
    ∀ {x w : Payment}, x ∈ l → w ∈ l → x.idempotencyKey = w.idempotencyKey → x = w := by
  intro l
  induction l with
  | nil => intro _ x w hx; cases hx
  | cons a l ih =>
    intro hpw x w hx hw hk
    rw [List.pairwise_cons] at hpw
    rcases List.mem_cons.mp hx with rfl | hx2
    · rcases List.mem_cons.mp hw with rfl | hw2
      · rfl
      · exact absurd hk (hpw.1 w hw2)
    · rcases List.mem_cons.mp hw with rfl | hw2
      · exact absurd hk.symm (hpw.1 x hx2)
      · exact ih hpw.2 hx2 hw2 hk

theorem filter_key_le_one : ∀ {l : List Payment},
    l.Pairwise (fun a b => a.idempotencyKey ≠ b.idempotencyKey) →
    ∀ k, (l.filter (fun p => p.idempotencyKey == k)).length ≤ 1 := by
  intro l
  induction l with
  | nil => simp
  | cons a l ih =>
    intro hpw k
    rw [List.pairwise_cons] at hpw
    by_cases hk : a.idempotencyKey = k
    · have hnone : l.filter (fun p => p.idempotencyKey == k) = [] := by
        rw [List.filter_eq_nil_iff]
        intro x hx
        simp
        intro hxk
        exact (hpw.1 x hx) (hk.trans hxk.symm)
      simp [List.filter_cons, hk, hnone]
    · simp [List.filter_cons, hk]
      exact ih hpw.2 k

theorem foldl_add_subtotal (l : List OrderItem) (a : ℚ) :
    l.foldl (fun total it => total + it.subtotal) a
      = a + (l.map (fun it => it.subtotal)).sum := by
  induction l generalizing a with
  | nil => simp
  | cons x l ih => simp [ih, add_assoc]

/-- The payment committed by the fresh branch of `CreatePayment`. -/
def createdPayment (st : PaymentLedger) (p : Payment) (now : Nat) : Payment :=
  { p with id := generateID st.nextID, status := PaymentStatusPending, createdAt := now }

/-- The ledger state produced by the fresh branch of `CreatePayment`. -/
def createdState (st : PaymentLedger) (p : Payment) (now : Nat) : PaymentLedger :=
  { paymentList := st.paymentList ++ [createdPayment st p now],
    nextID := st.nextID + 1,
    idempotencyMap := (p.idempotencyKey, generateID st.nextID) :: st.idempotencyMap }

theorem createPayment_fresh {st : PaymentLedger} {p : Payment} (now : Nat)
    (hn : st.idempotencyMap.lookup p.idempotencyKey = none) :
    CreatePayment st p now = some (createdState st p now, createdPayment st p now, .ok) := by
  unfold CreatePayment
  rw [hn]
  rfl

theorem createPayment_duplicate {st : PaymentLedger} {p : Payment} {wid : String} (now : Nat)
    (h : Consistent st) (hw : st.idempotencyMap.lookup p.idempotencyKey = some wid) :
    ∃ w, w ∈ st.paymentList ∧ w.id = wid ∧ w.idempotencyKey = p.idempotencyKey ∧
      CreatePayment st p now = some (st, w, .duplicateIdempotencyKey) := by
  obtain ⟨h1, _h2, _h3, h4, _h5⟩ := h
  obtain ⟨w, hwmem, hwid, hwkey⟩ := h1 _ (lookup_mem hw)
  have hwid2 : w.id = wid := hwid
  have hwkey2 : w.idempotencyKey = p.idempotencyKey := hwkey
  refine ⟨w, hwmem, hwid2, hwkey2, ?_⟩
  have hgp := getPaymentByID_of_mem h4 hwmem
  rw [hwid2] at hgp
  unfold CreatePayment
  rw [hw]
  show (match getPaymentByID st.paymentList wid with
    | some existing => some (st, existing, CreateResult.duplicateIdempotencyKey)
    | none => none) = some (st, w, CreateResult.duplicateIdempotencyKey)
  rw [hgp]

theorem key_not_listed_of_lookup_none {st : PaymentLedger} (h : Consistent st) {k : String}
    (hn : st.idempotencyMap.lookup k = none) :
    ∀ q ∈ st.paymentList, q.idempotencyKey ≠ k := by
  intro q hq hk
  have := h.2.1 q hq
  rw [hk, hn] at this
  simp at this

theorem consistent_createdState {st : PaymentLedger} {p : Payment} (now : Nat)
    (h : Consistent st) (hn : st.idempotencyMap.lookup p.idempotencyKey = none) :
    Consistent (createdState st p now) := by
  obtain ⟨h1, h2, h3, h4, h5⟩ := h
  have hfreshKey := key_not_listed_of_lookup_none ⟨h1, h2, h3, h4, h5⟩ hn
  have hfreshID : ∀ q ∈ st.paymentList, q.id ≠ generateID st.nextID := by
    intro q hq heq
    have hmem := h5 q hq
    simp only [List.mem_map, List.mem_range] at hmem
    obtain ⟨m, hm, hgen⟩ := hmem
    have : m = st.nextID := generateID_injective (hgen.trans heq)
    omega
  refine ⟨?_, ?_, ?_, ?_, ?_⟩
  · intro e he
    rcases List.mem_cons.mp he with rfl | hold
    · exact ⟨createdPayment st p now, by simp [createdState], rfl, rfl⟩
    · obtain ⟨q, hq, hqid, hqkey⟩ := h1 e hold
      exact ⟨q, by simp [createdState, hq], hqid, hqkey⟩
  · intro q hq
    have hq2 : q ∈ st.paymentList ∨ q = createdPayment st p now := by
      simpa [createdState] using hq
    rcases hq2 with hold | hnew
    · show ((((p.idempotencyKey, generateID st.nextID)) :: st.idempotencyMap).lookup q.idempotencyKey).isSome = true
      by_cases hk : q.idempotencyKey = p.idempotencyKey
      · simp [List.lookup, hk]
      · have hb : (q.idempotencyKey == p.idempotencyKey) = false := beq_eq_false_iff_ne.mpr hk
        simp only [List.lookup, hb]
        exact h2 q hold
    · subst hnew
      simp [createdState, createdPayment, List.lookup]
  · rw [show (createdState st p now).paymentList = st.paymentList ++ [createdPayment st p now] from rfl,
      List.pairwise_append]
    refine ⟨h3, by simp, ?_⟩
    intro a ha b hb
    have hb2 : b = createdPayment st p now := by simpa using hb
    subst hb2
    simpa [createdPayment] using hfreshKey a ha
  · rw [show (createdState st p now).paymentList = st.paymentList ++ [createdPayment st p now] from rfl,
      List.pairwise_append]
    refine ⟨h4, by simp, ?_⟩
    intro a ha b hb
    have hb2 : b = createdPayment st p now := by simpa using hb
    subst hb2
    simpa [createdPayment] using hfreshID a ha
  · intro q hq
    have hq2 : q ∈ st.paymentList ∨ q = createdPayment st p now := by
      simpa [createdState] using hq
    rcases hq2 with hold | hnew
    · have hmem := h5 q hold
      simp only [List.mem_map, List.mem_range] at hmem ⊢
      obtain ⟨m, hm, hgen⟩ := hmem
      exact ⟨m, by simp [createdState]; omega, hgen⟩
    · subst hnew
      simp only [List.mem_map, List.mem_range]
      exact ⟨st.nextID, by simp [createdState], rfl⟩

/-- C1: for every sequence of ledger create calls, at most one committed
payment exists per idempotency key.  Starting from any consistent ledger
state, `CreatePayment` succeeds, preserves consistency, leaves exactly one
committed payment carrying the requested key, returns that payment's id; a
create whose key is already present adds no new row and signals the
duplicate-key condition; and every subsequent caller with that key gets the
duplicate-key signal, no new row, and the same payment id. -/
theorem claim_C1_create_at_most_one_per_key
    (st : PaymentLedger) (p : Payment) (now : Nat) (h : Consistent st) :
    ∃ st' q r, CreatePayment st p now = some (st', q, r) ∧
      Consistent st' ∧
      q.idempotencyKey = p.idempotencyKey ∧
      (st'.paymentList.filter (fun x => x.idempotencyKey == p.idempotencyKey)).length = 1 ∧
      (∀ x ∈ st'.paymentList, x.idempotencyKey = p.idempotencyKey → x.id = q.id) ∧
      ((st.idempotencyMap.lookup p.idempotencyKey).isSome = true →
        r = .duplicateIdempotencyKey ∧ st' = st) ∧
      (st.idempotencyMap.lookup p.idempotencyKey = none →
        r = .ok ∧ st'.paymentList.length = st.paymentList.length + 1) ∧
      (∀ p2 now2, p2.idempotencyKey = p.idempotencyKey →
        ∃ q2, CreatePayment st' p2 now2 = some (st', q2, .duplicateIdempotencyKey) ∧
          q2.id = q.id) := by
  cases hcase : st.idempotencyMap.lookup p.idempotencyKey with
  | none =>
    have hfreshKey := key_not_listed_of_lookup_none h hcase
    have hcons := consistent_createdState now h hcase
    refine ⟨createdState st p now, createdPayment st p now, .ok,
      createPayment_fresh now hcase, hcons, rfl, ?_, ?_, ?_, fun _ => ⟨rfl, by simp [createdState]⟩, ?_⟩
    · show ((st.paymentList ++ [createdPayment st p now]).filter
        (fun x => x.idempotencyKey == p.idempotencyKey)).length = 1
      rw [List.filter_append]
      have hold : st.paymentList.filter (fun x => x.idempotencyKey == p.idempotencyKey) = [] := by
        rw [List.filter_eq_nil_iff]
        intro x hx
        simpa using hfreshKey x hx
      rw [hold]
      simp [createdPayment]
    · intro x hx hk
      have hx2 : x ∈ st.paymentList ∨ x = createdPayment st p now := by
        simpa [createdState] using hx
      rcases hx2 with hmem | rfl
      · exact absurd hk (hfreshKey x hmem)
      · rfl
    · intro hs
      simp at hs
    · intro p2 now2 hk2
      have hl2 : (createdState st p now).idempotencyMap.lookup p2.idempotencyKey
          = some (generateID st.nextID) := by
        have hb : (p2.idempotencyKey == p.idempotencyKey) = true := by simp [hk2]
        show (((p.idempotencyKey, generateID st.nextID)) :: st.idempotencyMap).lookup p2.idempotencyKey
          = some (generateID st.nextID)
        simp [List.lookup, hb]
      obtain ⟨w2, _hmem, hwid, _hwkey, heq⟩ := createPayment_duplicate now2 hcons hl2
      exact ⟨w2, heq, hwid⟩
  | some wid =>
    obtain ⟨w, hwmem, hwid, hwkey, heq⟩ := createPayment_duplicate now h hcase
    have h3 := h.2.2.1
    refine ⟨st, w, .duplicateIdempotencyKey, heq, h, hwkey, ?_, ?_, fun _ => ⟨rfl, rfl⟩, ?_, ?_⟩
    · have hle := filter_key_le_one h3 p.idempotencyKey
      have hmemf : w ∈ st.paymentList.filter (fun x => x.idempotencyKey == p.idempotencyKey) := by
        rw [List.mem_filter]
        exact ⟨hwmem, by simp [hwkey]⟩
      have hpos := List.length_pos_of_mem hmemf
      omega
    · intro x hx hk
      have := eq_of_same_key h3 hx hwmem (hk.trans hwkey.symm)
      rw [this]
    · intro hnone
      simp at hnone
    · intro p2 now2 hk2
      have hl2 : st.idempotencyMap.lookup p2.idempotencyKey = some wid := by
        rw [hk2, hcase]
      obtain ⟨w2, _hmem2, hwid2, _hwkey2, heq2⟩ := createPayment_duplicate now2 h hl2
      exact ⟨w2, heq2, hwid2.trans hwid.symm⟩

/-- C9: a create on an existing key returns the stored winner verbatim. -/
theorem claim_C9_duplicate_returns_winner_verbatim
    (st : PaymentLedger) (p : Payment) (now : Nat) (h : Consistent st)
    (hdup : (st.idempotencyMap.lookup p.idempotencyKey).isSome = true) :
    ∃ w, w ∈ st.paymentList ∧ w.idempotencyKey = p.idempotencyKey ∧
      CreatePayment st p now = some (st, w, .duplicateIdempotencyKey) ∧
      ∀ st' q r, CreatePayment st p now = some (st', q, r) →
        st' = st ∧ r = .duplicateIdempotencyKey ∧
        q.id = w.id ∧ q.orderID = w.orderID ∧ q.amount = w.amount ∧
        q.currency = w.currency ∧ q.status = w.status ∧ q.method = w.method ∧
        q.customerID = w.customerID ∧ q.idempotencyKey = w.idempotencyKey ∧
        q.transactionID = w.transactionID ∧ q.errorMessage = w.errorMessage ∧
        q.createdAt = w.createdAt ∧ q.processedAt = w.processedAt ∧
        q.failedAt = w.failedAt := by
  obtain ⟨wid, hwid⟩ := Option.isSome_iff_exists.mp hdup
  obtain ⟨w, hwmem, _hid, hwkey, heq⟩ := createPayment_duplicate now h hwid
  refine ⟨w, hwmem, hwkey, heq, ?_⟩
  intro st' q r heq2
  rw [heq] at heq2
  obtain ⟨h1, h2, h3⟩ : st = st' ∧ w = q ∧ CreateResult.duplicateIdempotencyKey = r := by
    injection heq2 with hpair
    injection hpair with ha hrest
    injection hrest with hb hc
    exact ⟨ha, hb, hc⟩
  subst h1; subst h2; subst h3
  exact ⟨rfl, rfl, rfl, rfl, rfl, rfl, rfl, rfl, rfl, rfl, rfl, rfl, rfl, rfl, rfl⟩

/-- C2 (amended): resolving a payment whose status is `completed` signals
the already-processed condition and leaves the ledger unchanged; the
`failed` terminal status is not protected by the code. -/
theorem claim_C2_amended_completed_protected
    {st : PaymentLedger} {pid : String} (now txn : Nat) {p : Payment} {i : Nat}
    (hfind : findPayment st.paymentList pid = some (p, i))
    (hc : p.status = PaymentStatusCompleted) :
    ProcessPayment st pid now txn = (st, .alreadyProcessed) := by
  unfold ProcessPayment
  rw [hfind]
  simp [hc]

/-- A payment already in the `failed` terminal state. -/
def c2FailedPayment : Payment :=
  { id := "pay_1", orderID := "order_300", amount := 50, currency := "USD",
    status := PaymentStatusFailed, method := "credit_card", customerID := "cust_300",
    idempotencyKey := "idem_c2", transactionID := "",
    errorMessage := "Payment declined by gateway", createdAt := 1,
    processedAt := none, failedAt := some 2 }

/-- A ledger holding only the failed payment. -/
def c2FailedLedger : PaymentLedger :=
  { paymentList := [c2FailedPayment], nextID := 2,
    idempotencyMap := [("idem_c2", "pay_1")] }

/-- C2 counterexample: resolving the `failed` (terminal) payment `pay_1`
does not signal the already-processed condition; it re-runs the gateway and
mutates the stored payment to `completed`. -/
theorem claim_C2_counterexample :
    (ProcessPayment c2FailedLedger "pay_1" 5 7).2 = ProcessResult.ok ∧
    (ProcessPayment c2FailedLedger "pay_1" 5 7).1 ≠ c2FailedLedger ∧
    (getPaymentByID (ProcessPayment c2FailedLedger "pay_1" 5 7).1.paymentList "pay_1").map
      Payment.status = some PaymentStatusCompleted := by
  decide

/-- A payment already in the `completed` terminal state. -/
def c2CompletedPayment : Payment :=
  { id := "pay_1", orderID := "order_200", amount := 75, currency := "AED",
    status := PaymentStatusCompleted, method := "debit_card", customerID := "cust_200",
    idempotencyKey := "idem_c2w", transactionID := "txn_9", errorMessage := "",
    createdAt := 1, processedAt := some 2, failedAt := none }

/-- A ledger holding only the completed payment. -/
def c2CompletedLedger : PaymentLedger :=
  { paymentList := [c2CompletedPayment], nextID := 2,
    idempotencyMap := [("idem_c2w", "pay_1")] }

theorem claim_C2_witness :
    findPayment c2CompletedLedger.paymentList "pay_1" = some (c2CompletedPayment, 0) ∧
    ProcessPayment c2CompletedLedger "pay_1" 5 7 = (c2CompletedLedger, .alreadyProcessed) :=
  ⟨by decide,
   @claim_C2_amended_completed_protected c2CompletedLedger "pay_1" 5 7 c2CompletedPayment 0
     (by decide) (by decide)⟩

/-- C7: the simulated gateway declines exactly the sentinel amount 666 and
amounts above the 10000 ceiling, and accepts everything else. -/
theorem claim_C7_gateway_decision (p : Payment) :
    simulatePaymentGateway p = false ↔ (p.amount = 666 ∨ p.amount > 10000) := by
  unfold simulatePaymentGateway
  by_cases h : p.amount = 666 ∨ p.amount > 10000 <;> simp [h]

/-- C6: key derivation is a deterministic function of order id and nonce,
and with UUID nonces (always 36 characters) keys of distinct order ids never
collide. -/
theorem claim_C6_key_derivation :
    (∀ orderID nonce1 nonce2, nonce1 = nonce2 →
      GenerateIdempotencyKey orderID nonce1 = GenerateIdempotencyKey orderID nonce2) ∧
    (∀ o1 n1 o2 n2, n1.length = 36 → n2.length = 36 →
      GenerateIdempotencyKey o1 n1 = GenerateIdempotencyKey o2 n2 → o1 = o2) := by
  constructor
  · intro orderID n1 n2 h
    rw [h]
  · intro o1 n1 o2 n2 h1 h2 heq
    unfold GenerateIdempotencyKey at heq
    have hd := congrArg String.data heq
    simp only [String.data_append, List.append_assoc] at hd
    have hd2 := List.append_cancel_left hd
    have hlen : ("_".data ++ n1.data).length = ("_".data ++ n2.data).length := by
      simp only [List.length_append]
      have e1 : n1.data.length = 36 := h1
      have e2 : n2.data.length = 36 := h2
      omega
    have hdata := (List.append_inj' hd2 hlen).1
    cases o1; cases o2
    exact congrArg String.mk hdata

/-- A sample UUID string (36 characters), as produced by the UUID library. -/
def uuidSample : String := "123e4567-e89b-12d3-a456-426614174000"

theorem claim_C6_witness :
    uuidSample.length = 36 ∧ "ord_a" = "ord_a" :=
  ⟨by decide,
   claim_C6_key_derivation.2 "ord_a" uuidSample "ord_a" uuidSample (by decide) (by decide) rfl⟩

/-- A fresh payment request for the create path. -/
def c1Payment : Payment :=
  { id := "", orderID := "order_100", amount := 25, currency := "USD", status := "",
    method := "credit_card", customerID := "cust_100", idempotencyKey := "idem_test_5",
    transactionID := "", errorMessage := "", createdAt := 0, processedAt := none,
    failedAt := none }

theorem claim_C1_witness :
    Consistent paymentLedgerInit ∧
    (CreatePayment paymentLedgerInit c1Payment 3).isSome = true := by
  refine ⟨by decide, ?_⟩
  obtain ⟨st', q, r, heq, _⟩ :=
    claim_C1_create_at_most_one_per_key paymentLedgerInit c1Payment 3 (by decide)
  rw [heq]
  rfl

/-- The first writer committed under key `idem_test_5`. -/
def c9Winner : Payment :=
  { id := "pay_1", orderID := "order_100", amount := 25, currency := "USD",
    status := "pending", method := "credit_card", customerID := "cust_100",
    idempotencyKey := "idem_test_5", transactionID := "", errorMessage := "",
    createdAt := 1, processedAt := none, failedAt := none }

/-- A consistent ledger holding only the winner. -/
def c9Ledger : PaymentLedger :=
  { paymentList := [c9Winner], nextID := 2, idempotencyMap := [("idem_test_5", "pay_1")] }

/-- A second request reusing the key but carrying different values. -/
def c9Duplicate : Payment :=
  { id := "", orderID := "order_101", amount := 30, currency := "USD", status := "",
    method := "credit_card", customerID := "cust_101", idempotencyKey := "idem_test_5",
    transactionID := "", errorMessage := "", createdAt := 0, processedAt := none,
    failedAt := none }

theorem claim_C9_witness :
    Consistent c9Ledger ∧
    CreatePayment c9Ledger c9Duplicate 5 = some (c9Ledger, c9Winner, .duplicateIdempotencyKey) := by
  refine ⟨by decide, ?_⟩
  obtain ⟨w, hmem, _hkey, heq, _⟩ :=
    claim_C9_duplicate_returns_winner_verbatim c9Ledger c9Duplicate 5 (by decide) (by decide)
  have hw : w = c9Winner := by
    simpa [c9Ledger] using hmem
  rw [hw] at heq
  exact heq

theorem buildItems_spec {products : List Product} :
    ∀ {reqs : List OrderItemRequest} {items : List OrderItem},
      buildItems products reqs = .ok items →
      ∀ it ∈ items, ∃ pr, getProduct products it.productID = .ok pr ∧
        pr.available = true ∧ it.unitPrice = pr.price := by
  intro reqs
  induction reqs with
  | nil =>
    intro items h it hit
    simp [buildItems] at h
    subst h
    cases hit
  | cons r rest ih =>
    intro items h it hit
    unfold buildItems at h
    cases hg : getProduct products r.productID with
    | error e =>
      rw [hg] at h
      cases h
    | ok product =>
      rw [hg] at h
      by_cases hav : product.available = true
      · simp only [hav, if_true] at h
        cases hrest : buildItems products rest with
        | error e =>
          rw [hrest] at h
          cases h
        | ok restItems =>
          rw [hrest] at h
          simp only [Except.map] at h
          have hitems :
              ({ productID := product.id, productName := product.name,
                 quantity := r.quantity, unitPrice := product.price,
                 subtotal := product.price * (r.quantity : ℚ) } : OrderItem) :: restItems
                = items := by
            injection h
          rw [← hitems] at hit
          rcases List.mem_cons.mp hit with rfl | hmem
          · refine ⟨product, ?_, hav, rfl⟩
            have hid : product.id = r.productID := by
              unfold getProduct at hg
              cases hf : products.find? (fun pr => pr.id == r.productID) with
              | none =>
                rw [hf] at hg
                cases hg
              | some pr0 =>
                rw [hf] at hg
                have hfound := List.find?_some hf
                simp at hfound
                have hpr0 : pr0 = product := by injection hg
                rw [← hpr0]
                exact hfound
            show getProduct products product.id = Except.ok product
            rw [hid, hg]
          · exact ih hrest it hmem
      · simp only [hav, if_false] at h
        cases h

/-- C5: in every successfully built order each stored line item carries the
catalog price of its available product, its subtotal is quantity times that
server price, and the order total is the exact sum of the stored subtotals. -/
theorem claim_C5_totals {products : List Product} {req : CreateOrderRequest} {ord : Order}
    (hbuild : buildOrderFromRequest products req = .ok ord) :
    (∀ it ∈ ord.items, ∃ pr, getProduct products it.productID = .ok pr ∧
        pr.available = true ∧ it.unitPrice = pr.price ∧
        it.subtotal = (it.quantity : ℚ) * pr.price) ∧
    ord.totalAmount = (ord.items.map (fun it => it.subtotal)).sum := by
  unfold buildOrderFromRequest at hbuild
  cases hbi : buildItems products req.items with
  | error e =>
    rw [hbi] at hbuild
    cases hbuild
  | ok items0 =>
    rw [hbi] at hbuild
    simp only [Except.map] at hbuild
    have hord := hbuild
    injection hord with hord2
    rw [← hord2]
    constructor
    · intro it hit
      simp only [Order.calculateTotal] at hit
      obtain ⟨it0, hit0, rfl⟩ := List.mem_map.mp hit
      obtain ⟨pr, hpr, hav, hprice⟩ := buildItems_spec hbi it0 hit0
      exact ⟨pr, hpr, hav, hprice, by simp [hprice]⟩
    · simp only [Order.calculateTotal]
      rw [foldl_add_subtotal]
      simp

/-- A demo catalog entry priced 12.99. -/
def demoLatte : Product :=
  { id := "prod_1", name := "Latte", description := "", price := 12.99, emoji := "",
    category := "drinks", available := true, createdAt := 0, updatedAt := 0 }

/-- A demo catalog entry priced 4.99. -/
def demoCookie : Product :=
  { id := "prod_2", name := "Cookie", description := "", price := 4.99, emoji := "",
    category := "snacks", available := true, createdAt := 0, updatedAt := 0 }

/-- The demo catalog. -/
def demoProducts : List Product := [demoLatte, demoCookie]

/-- A demo request: two lattes and one cookie, no client prices. -/
def demoReq : CreateOrderRequest :=
  { customerID := "cust_1", customerEmail := "a@b.c",
    items := [{ productID := "prod_1", quantity := 2 }, { productID := "prod_2", quantity := 1 }],
    currency := "USD", paymentMethod := "credit_card", shippingAddress := "addr 1" }

/-- The order built from the demo request: server-priced items and the
30.97 total. -/
def demoOrder : Order :=
  { id := "", customerID := "cust_1", customerEmail := "a@b.c",
    items := [{ productID := "prod_1", productName := "Latte", quantity := 2,
                unitPrice := 12.99, subtotal := 25.98 },
              { productID := "prod_2", productName := "Cookie", quantity := 1,
                unitPrice := 4.99, subtotal := 4.99 }],
    totalAmount := 30.97, currency := "USD", status := "", paymentID := "",
    paymentMethod := "credit_card", shippingAddress := "addr 1",
    createdAt := 0, updatedAt := 0 }

theorem demoOrder_build : buildOrderFromRequest demoProducts demoReq = Except.ok demoOrder := by
  have e1 : (("prod_1" : String) == "prod_1") = true := by rfl
  have e2 : (("prod_1" : String) == "prod_2") = false := by rfl
  have e3 : (("prod_2" : String) == "prod_2") = true := by rfl
  norm_num [buildOrderFromRequest, buildItems, getProduct, demoProducts, demoReq, demoLatte,
    demoCookie, List.find?, Order.calculateTotal, demoOrder, Except.map, e1, e2, e3]

theorem claim_C5_witness :
    buildOrderFromRequest demoProducts demoReq = .ok demoOrder ∧
    demoOrder.totalAmount = (demoOrder.items.map (fun it => it.subtotal)).sum :=
  ⟨demoOrder_build, (claim_C5_totals demoOrder_build).2⟩

/-- C10: the repository updates are frame-preserving.  `UpdateStatus` keeps
the store length, leaves every row with a different id untouched, and on the
matching row changes exactly the status and updated-at fields;
`UpdatePaymentID` has the same frame with respect to the payment reference. -/
theorem claim_C10_update_frame (store : List Order) (id status pid : String) (now : Nat) :
    ((UpdateStatus store id status now).1.length = store.length ∧
     (UpdatePaymentID store id pid now).1.length = store.length) ∧
    (∀ i, ∀ h1 : i < (UpdateStatus store id status now).1.length, ∀ h2 : i < store.length,
      ((store.get ⟨i, h2⟩).id ≠ id →
        (UpdateStatus store id status now).1.get ⟨i, h1⟩ = store.get ⟨i, h2⟩) ∧
      ((store.get ⟨i, h2⟩).id = id →
        (UpdateStatus store id status now).1.get ⟨i, h1⟩
          = { store.get ⟨i, h2⟩ with status := status, updatedAt := now })) ∧
    (∀ i, ∀ h1 : i < (UpdatePaymentID store id pid now).1.length, ∀ h2 : i < store.length,
      ((store.get ⟨i, h2⟩).id ≠ id →
        (UpdatePaymentID store id pid now).1.get ⟨i, h1⟩ = store.get ⟨i, h2⟩) ∧
      ((store.get ⟨i, h2⟩).id = id →
        (UpdatePaymentID store id pid now).1.get ⟨i, h1⟩
          = { store.get ⟨i, h2⟩ with paymentID := pid, updatedAt := now })) := by
  refine ⟨⟨by simp [UpdateStatus], by simp [UpdatePaymentID]⟩, ?_, ?_⟩
  · intro i h1 h2
    simp only [List.get_eq_getElem, UpdateStatus, List.getElem_map]
    constructor
    · intro hne
      simp [hne]
    · intro hEq
      simp [hEq]
  · intro i h1 h2
    simp only [List.get_eq_getElem, UpdatePaymentID, List.getElem_map]
    constructor
    · intro hne
      simp [hne]
    · intro hEq
      simp [hEq]

/-- A stored order used to exercise the update frame. -/
def c10OrderA : Order :=
  { id := "ord_a", customerID := "c1", customerEmail := "e@x.y", items := [],
    totalAmount := 5, currency := "USD", status := "pending", paymentID := "",
    paymentMethod := "credit_card", shippingAddress := "s", createdAt := 0, updatedAt := 0 }

/-- A second stored order that must stay untouched. -/
def c10OrderB : Order :=
  { c10OrderA with id := "ord_b" }

/-- A two-row order store. -/
def c10Store : List Order := [c10OrderA, c10OrderB]

theorem claim_C10_witness :
    (UpdateStatus c10Store "ord_a" "failed" 7).1.get ⟨1, by decide⟩ = c10OrderB ∧
    (UpdateStatus c10Store "ord_a" "failed" 7).1.get ⟨0, by decide⟩
      = { c10OrderA with status := "failed", updatedAt := 7 } := by
  have h := claim_C10_update_frame c10Store "ord_a" "failed" "pay_7" 7
  constructor
  · exact ((h.2.1 1 (by decide) (by decide)).1 (by decide)).trans (by decide)
  · exact ((h.2.1 0 (by decide) (by decide)).2 (by decide)).trans (by decide)

/-- C4: when the payment call fails at the transport level, the handler
answers service-unavailable and the persisted order is patched to `failed`,
never left `pending`. -/
theorem claim_C4_transport_failure_terminal
    {products : List Product} {store : List Order} {req : CreateOrderRequest}
    {orderID nonce : String} {now : Nat} {payCall : PaymentRequest → PaymentCallOutcome}
    {ord : Order}
    (hbuild : buildOrderFromRequest products req = .ok ord)
    (hpos : ¬ (withCreationMeta ord orderID now).totalAmount ≤ 0)
    (hpay : payCall (paymentRequestFor (withCreationMeta ord orderID now) nonce)
      = .transportError) :
    (CreateOrder products store req orderID nonce now payCall).2 = .paymentServiceUnavailable ∧
    (∃ x ∈ (CreateOrder products store req orderID nonce now payCall).1, x.id = orderID) ∧
    (∀ x ∈ (CreateOrder products store req orderID nonce now payCall).1,
      x.id = orderID → x.status = OrderStatusFailed ∧ x.status ≠ OrderStatusPending) := by
  have hres : CreateOrder products store req orderID nonce now payCall
      = ((UpdateStatus (store ++ [withCreationMeta ord orderID now])
            (withCreationMeta ord orderID now).id OrderStatusFailed now).1,
         .paymentServiceUnavailable) := by
    unfold CreateOrder
    rw [hbuild]
    simp only [if_neg hpos, hpay]
  rw [hres]
  have hid : (withCreationMeta ord orderID now).id = orderID := rfl
  refine ⟨rfl, ?_, ?_⟩
  · refine ⟨({ withCreationMeta ord orderID now with status := OrderStatusFailed, updatedAt := now } : Order), ?_, rfl⟩
    show _ ∈ (store ++ [withCreationMeta ord orderID now]).map _
    refine List.mem_map.mpr ⟨withCreationMeta ord orderID now, ?_, ?_⟩
    · exact List.mem_append_right _ (List.mem_singleton.mpr rfl)
    · simp [hid]
  · intro x hx hxid
    obtain ⟨y, _hy, rfl⟩ := List.mem_map.mp hx
    by_cases hyid : y.id = (withCreationMeta ord orderID now).id
    · simp only [hyid, if_true, if_pos]
      constructor
      · simp [hyid]
      · simp [hyid, OrderStatusFailed, OrderStatusPending]
    · exfalso
      apply hyid
      simp only [if_neg hyid] at hxid
      rw [hxid, hid]

/-- C3: when the payment call returns a payment, a `completed` status patches
the order to `paid` with the payment reference recorded and answers success;
any other (e.g. `failed`) status patches the order to `failed`, still records
the payment reference, and answers payment-required with the gateway error
detail. -/
theorem claim_C3_terminal_payment_outcomes
    {products : List Product} {store : List Order} {req : CreateOrderRequest}
    {orderID nonce : String} {now : Nat} {payCall : PaymentRequest → PaymentCallOutcome}
    {ord : Order} {pay : ClientPayment}
    (hbuild : buildOrderFromRequest products req = .ok ord)
    (hpos : ¬ (withCreationMeta ord orderID now).totalAmount ≤ 0)
    (hpay : payCall (paymentRequestFor (withCreationMeta ord orderID now) nonce)
      = .response pay) :
    (pay.status = "completed" →
      (CreateOrder products store req orderID nonce now payCall).2
        = .created { withCreationMeta ord orderID now with
                     paymentID := pay.id, status := OrderStatusPaid } ∧
      (∃ x ∈ (CreateOrder products store req orderID nonce now payCall).1, x.id = orderID) ∧
      (∀ x ∈ (CreateOrder products store req orderID nonce now payCall).1,
        x.id = orderID → x.status = OrderStatusPaid ∧ x.paymentID = pay.id)) ∧
    (pay.status = "failed" →
      (CreateOrder products store req orderID nonce now payCall).2
        = .paymentFailed ("Payment failed: " ++ pay.errorMessage) ∧
      (∃ x ∈ (CreateOrder products store req orderID nonce now payCall).1, x.id = orderID) ∧
      (∀ x ∈ (CreateOrder products store req orderID nonce now payCall).1,
        x.id = orderID → x.status = OrderStatusFailed ∧ x.paymentID = pay.id)) := by
  have hid : (withCreationMeta ord orderID now).id = orderID := rfl
  constructor
  · intro hst
    have hres : CreateOrder products store req orderID nonce now payCall
        = ((UpdateStatus
              (UpdatePaymentID (store ++ [withCreationMeta ord orderID now])
                (withCreationMeta ord orderID now).id pay.id now).1
              (withCreationMeta ord orderID now).id OrderStatusPaid now).1,
           .created { withCreationMeta ord orderID now with
                      paymentID := pay.id, status := OrderStatusPaid }) := by
      unfold CreateOrder
      rw [hbuild]
      simp only [if_neg hpos, hpay, hst, if_pos, if_true]
    rw [hres]
    refine ⟨rfl, ?_, ?_⟩
    · refine ⟨({ withCreationMeta ord orderID now with paymentID := pay.id, status := OrderStatusPaid, updatedAt := now } : Order), ?_, rfl⟩
      show _ ∈ ((store ++ [withCreationMeta ord orderID now]).map _).map _
      rw [List.map_map]
      refine List.mem_map.mpr ⟨withCreationMeta ord orderID now, ?_, ?_⟩
      · exact List.mem_append_right _ (List.mem_singleton.mpr rfl)
      · simp
    · intro x hx hxid
      simp only [UpdateStatus, UpdatePaymentID] at hx
      obtain ⟨y1, hy1, rfl⟩ := List.mem_map.mp hx
      obtain ⟨y, _hy, rfl⟩ := List.mem_map.mp hy1
      by_cases hyid : y.id = (withCreationMeta ord orderID now).id
      · simp [hyid]
      · exfalso
        apply hyid
        simp only [hyid, if_false] at hxid
        rw [hxid, hid]
  · intro hst
    have hne : ¬ pay.status = "completed" := by
      rw [hst]
      decide
    have hres : CreateOrder products store req orderID nonce now payCall
        = ((UpdateStatus
              (UpdatePaymentID (store ++ [withCreationMeta ord orderID now])
                (withCreationMeta ord orderID now).id pay.id now).1
              (withCreationMeta ord orderID now).id OrderStatusFailed now).1,
           .paymentFailed ("Payment failed: " ++ pay.errorMessage)) := by
      unfold CreateOrder
      rw [hbuild]
      simp only [if_neg hpos, hpay, if_neg hne]
    rw [hres]
    refine ⟨rfl, ?_, ?_⟩
    · refine ⟨({ withCreationMeta ord orderID now with paymentID := pay.id, status := OrderStatusFailed, updatedAt := now } : Order), ?_, rfl⟩
      show _ ∈ ((store ++ [withCreationMeta ord orderID now]).map _).map _
      rw [List.map_map]
      refine List.mem_map.mpr ⟨withCreationMeta ord orderID now, ?_, ?_⟩
      · exact List.mem_append_right _ (List.mem_singleton.mpr rfl)
      · simp
    · intro x hx hxid
      simp only [UpdateStatus, UpdatePaymentID] at hx
      obtain ⟨y1, hy1, rfl⟩ := List.mem_map.mp hx
      obtain ⟨y, _hy, rfl⟩ := List.mem_map.mp hy1
      by_cases hyid : y.id = (withCreationMeta ord orderID now).id
      · simp [hyid]
      · exfalso
        apply hyid
        simp only [hyid, if_false] at hxid
        rw [hxid, hid]

theorem buildItems_error_of_bad {products : List Product} :
    ∀ {reqs : List OrderItemRequest},
      (∃ itemReq ∈ reqs,
        getProduct products itemReq.productID
          = .error (.productNotFound itemReq.productID) ∨
        ∃ pr, getProduct products itemReq.productID = .ok pr ∧ pr.available = false) →
      ∃ e, buildItems products reqs = .error e := by
  intro reqs
  induction reqs with
  | nil =>
    intro h
    obtain ⟨r, hr, _⟩ := h
    cases hr
  | cons r rest ih =>
    intro h
    obtain ⟨r0, hr0, hbad⟩ := h
    rcases List.mem_cons.mp hr0 with rfl | hmem
    · rcases hbad with hnf | ⟨pr, hok, hunav⟩
      · refine ⟨.productNotFound r0.productID, ?_⟩
        unfold buildItems
        rw [hnf]
      · refine ⟨.productUnavailable pr.name, ?_⟩
        unfold buildItems
        rw [hok]
        simp [hunav]
    · unfold buildItems
      cases hg : getProduct products r.productID with
      | error e => exact ⟨e, rfl⟩
      | ok product =>
        by_cases hav : product.available = true
        · obtain ⟨e, he⟩ := ih ⟨r0, hmem, hbad⟩
          refine ⟨e, ?_⟩
          simp [hav, he, Except.map]
        · exact ⟨.productUnavailable product.name, by simp [hav]⟩

/-- C8: a request naming a missing or unavailable product is rejected before
any write: the store is returned unchanged, the response is the build
rejection, and the outcome does not depend on the payment collaborator at
all (no payment is attempted). -/
theorem claim_C8_invalid_product_rejected_before_write
    {products : List Product} {req : CreateOrderRequest}
    (hbad : ∃ itemReq ∈ req.items,
      getProduct products itemReq.productID
        = .error (.productNotFound itemReq.productID) ∨
      ∃ pr, getProduct products itemReq.productID = .ok pr ∧ pr.available = false) :
    ∃ e, ∀ store orderID nonce now payCall,
      CreateOrder products store req orderID nonce now payCall
        = (store, .badRequest (buildErrorMsg e)) := by
  obtain ⟨e, he⟩ := buildItems_error_of_bad hbad
  refine ⟨e, ?_⟩
  intro store orderID nonce now payCall
  have hb : buildOrderFromRequest products req = .error e := by
    unfold buildOrderFromRequest
    rw [he]
    rfl
  unfold CreateOrder
  rw [hb]

theorem claim_C4_witness :
    ¬ (withCreationMeta demoOrder "ord_1" 0).totalAmount ≤ 0 ∧
    (CreateOrder demoProducts [] demoReq "ord_1" uuidSample 0
        (fun _ => PaymentCallOutcome.transportError)).2 = .paymentServiceUnavailable := by
  refine ⟨by norm_num [withCreationMeta, demoOrder], ?_⟩
  exact (@claim_C4_transport_failure_terminal demoProducts [] demoReq "ord_1" uuidSample 0
    (fun _ => PaymentCallOutcome.transportError) demoOrder demoOrder_build
    (by norm_num [withCreationMeta, demoOrder]) rfl).1

/-- The payment returned by the gateway in the demo success scenario. -/
def demoPay : ClientPayment :=
  { id := "pay_1", orderID := "ord_1", amount := 30.97, currency := "USD",
    status := "completed", method := "credit_card", customerID := "cust_1",
    transactionID := "txn_1", errorMessage := "", createdAt := 0 }

theorem claim_C3_witness :
    demoPay.status = "completed" ∧
    (CreateOrder demoProducts [] demoReq "ord_1" uuidSample 0
        (fun _ => PaymentCallOutcome.response demoPay)).2
      = .created { withCreationMeta demoOrder "ord_1" 0 with
                   paymentID := "pay_1", status := OrderStatusPaid } := by
  refine ⟨rfl, ?_⟩
  have h := @claim_C3_terminal_payment_outcomes demoProducts [] demoReq "ord_1" uuidSample 0
    (fun _ => PaymentCallOutcome.response demoPay) demoOrder demoPay demoOrder_build
    (by norm_num [withCreationMeta, demoOrder]) rfl
  exact (h.1 rfl).1

/-- An unavailable catalog product. -/
def c8Soup : Product :=
  { id := "prod_9", name := "Soup", description := "", price := 3, emoji := "",
    category := "food", available := false, createdAt := 0, updatedAt := 0 }

/-- A catalog holding only the unavailable product. -/
def c8Products : List Product := [c8Soup]

/-- A request referencing the unavailable product. -/
def c8Req : CreateOrderRequest :=
  { customerID := "cust_2", customerEmail := "b@c.d",
    items := [{ productID := "prod_9", quantity := 1 }],
    currency := "USD", paymentMethod := "credit_card", shippingAddress := "addr 2" }

theorem claim_C8_witness :
    CreateOrder c8Products [] c8Req "ord_2" uuidSample 0
        (fun _ => PaymentCallOutcome.transportError)
      = ([], .badRequest "product unavailable: Soup") := by
  obtain ⟨e, h⟩ := @claim_C8_invalid_product_rejected_before_write c8Products c8Req
    ⟨{ productID := "prod_9", quantity := 1 }, by simp [c8Req], Or.inr ⟨c8Soup, rfl, rfl⟩⟩
  have h2 := h [] "ord_2" uuidSample 0 (fun _ => PaymentCallOutcome.transportError)
  exact by rfl
